import Mathlib

/-!
Verification of the peer-discovery / fan-out / addon-lifecycle core of the
Image-Presenter repository.  The definitions below are shallow embeddings of
the JavaScript source (SourceCodeOLD-Electron/main.js and the unnamed admin
frontend file); theorems settle the frozen claims about them.
-/

namespace ImagePresenter

/-! ## Peer data model (main.js: objects stored in `config.peers`)

A discovered peer (main.js lines 851-859) carries `name, ip, port, lastSeen,
manual, online, id`; a manually added peer (lines 689-697) carries
`ip, name, port, manual, id, lastChecked, online`.  Fields a given code path
leaves absent are modelled with the neutral value 0: the only place that
reads `lastSeen` guards it behind `peer.manual ||` (line 928), and
`lastChecked` is only ever read back by the UI. -/

structure Peer where
  name : String
  ip : String
  port : Nat
  lastSeen : Int
  manual : Bool
  online : Bool
  lastChecked : Int
  id : String
deriving Repr, DecidableEq

/-- The subset of the global `config` object that the discovery listener
reads (main.js lines 827-842). -/
structure DiscoveryConfig where
  displayName : String
  staticIp : String
  port : Nat
deriving Repr, DecidableEq

/-- The JSON body of a discovery datagram (main.js lines 883-888). -/
structure Announcement where
  type : String
  id : String
  name : String
  port : Nat
deriving Repr, DecidableEq

/-- main.js lines 829-839: the peer IP is the datagram's source address,
except that loopback datagrams are remapped: if a static IP is configured
and the announced port differs from the local port, the static IP is used,
otherwise the literal string "localhost".  (`config.staticIp` is truthy in
JS exactly when it is a non-empty string.) -/
def resolvePeerIp (cfg : DiscoveryConfig) (srcAddr : String) (annPort : Nat) : String :=
  if srcAddr = "127.0.0.1" then
    if cfg.staticIp ≠ "" ∧ annPort ≠ cfg.port then cfg.staticIp else "localhost"
  else srcAddr

/-- main.js line 842 and line 694: `` `${ip}:${port}` ``. -/
def derivePeerId (ip : String) (port : Nat) : String :=
  ip ++ ":" ++ toString port

/-- The peer id an announcement resolves to. -/
def announcedPeerId (cfg : DiscoveryConfig) (srcAddr : String) (annPort : Nat) : String :=
  derivePeerId (resolvePeerIp cfg srcAddr annPort) annPort

/-- main.js lines 845-849: the fields the listener rewrites on the first
peer whose id matches (`config.peers.find`). -/
def updatePeerFields (p : Peer) (ann : Announcement) (now : Int) : Peer :=
  { p with name := ann.name, lastSeen := now, online := true, port := ann.port }

/-- Update, in place, the first peer whose id is `pid` (the source mutates
the object returned by `Array.prototype.find`). -/
def updateFirstPeer (pid : String) (ann : Announcement) (now : Int) : List Peer → List Peer
  | [] => []
  | p :: ps =>
    if p.id == pid then updatePeerFields p ann now :: ps
    else p :: updateFirstPeer pid ann now ps

/-- main.js lines 822-867, the discovery socket's message handler: parse the
datagram, ignore anything that is not an announcement or that carries the
local display name, resolve the peer IP, then update the first existing peer
with the derived id or push a new discovered peer. -/
def upsertFromAnnouncement (cfg : DiscoveryConfig) (ann : Announcement) (srcAddr : String)
    (now : Int) (peers : List Peer) : List Peer :=
  if ann.type = "announce" ∧ ann.id ≠ cfg.displayName then
    let peerIp := resolvePeerIp cfg srcAddr ann.port
    let peerId := derivePeerId peerIp ann.port
    match peers.find? (fun p => p.id == peerId) with
    | some _ => updateFirstPeer peerId ann now peers
    | none =>
        peers ++ [{ name := ann.name, ip := peerIp, port := ann.port, lastSeen := now,
                    manual := false, online := true, lastChecked := 0, id := peerId }]
  else peers

/-- Number of peers in the registry carrying a given id. -/
def countId (peers : List Peer) (pid : String) : Nat :=
  (peers.filter (fun p => p.id == pid)).length

/-! ## Staleness sweep (main.js lines 926-931)

`config.peers = config.peers.filter(peer => peer.manual || (now - peer.lastSeen < 30000))`
run every 10 s.  The window is the hard-coded 30000 ms; the sweep itself is
the filter, parametric in the window. -/

def sweepStale (now maxAgeMs : Int) (peers : List Peer) : List Peer :=
  peers.filter (fun p => p.manual || decide (now - p.lastSeen < maxAgeMs))

/-- The hard-coded staleness window of the cleanup interval. -/
def stalenessWindowMs : Int := 30000

/-! ## Manual add / remove (main.js lines 686-717) -/

/-- Body of `POST /api/peers/add`. -/
structure AddPeerRequest where
  ip : String
  name : String
  port : Option Nat
deriving Repr, DecidableEq

/-- main.js line 688: `port || config.port` — the request port unless it is
absent or `0` (both falsy in JS). -/
def effectivePort (cfgPort : Nat) (reqPort : Option Nat) : Nat :=
  match reqPort with
  | none => cfgPort
  | some 0 => cfgPort
  | some n => n

/-- Replace the first peer sharing the new peer's id (main.js lines 700-702:
`findIndex` then assignment at that index), or push at the end (line 704). -/
def setFirstById (peer : Peer) : List Peer → List Peer
  | [] => [peer]
  | p :: ps => if p.id == peer.id then peer :: ps else p :: setFirstById peer ps

/-- main.js lines 686-710, `POST /api/peers/add`: build the manual peer
record and upsert-or-replace it by id. -/
def addManualPeer (cfgPort : Nat) (req : AddPeerRequest) (peers : List Peer) : List Peer :=
  let pp := effectivePort cfgPort req.port
  setFirstById
    { name := req.name, ip := req.ip, port := pp, lastSeen := 0,
      manual := true, online := false, lastChecked := 0,
      id := derivePeerId req.ip pp } peers

/-- main.js lines 712-717, `DELETE /api/peers/:id`:
`config.peers = config.peers.filter(p => p.id !== peerId)`. -/
def removePeer (pid : String) (peers : List Peer) : List Peer :=
  peers.filter (fun p => p.id != pid)

/-! ## Peer liveness check (main.js lines 292-324, `checkPeerStatus`)

The axios GET of `http://connectIp:port/api/config` is abstracted by a
`probe` outcome: `Except.ok` carries the JSON body (of which the function
reads only `displayName`), `Except.error` covers every failure the single
`catch` block swallows (timeout, refused connection, non-JSON body). -/

/-- The part of a peer's `/api/config` response that `checkPeerStatus`
reads; `displayName` is `none` when absent from the JSON. -/
structure ConfigResponse where
  displayName : Option String
deriving Repr, DecidableEq

/-- main.js lines 295-300: connect to the static IP instead of a loopback
peer address when a static IP is configured. -/
def connectIp (staticIp : String) (peer : Peer) : String :=
  if (peer.ip = "localhost" ∨ peer.ip = "127.0.0.1") ∧ staticIp ≠ "" then staticIp
  else peer.ip

/-- main.js line 314: `if (response.data.displayName) peer.name = ...` —
the name is refreshed only when the reported value is truthy (a non-empty
string). -/
def refreshName (current : String) (reported : Option String) : String :=
  match reported with
  | some s => if s ≠ "" then s else current
  | none => current

/-- main.js lines 292-324: the whole body is one try/catch, so the function
is total over probe outcomes — it always returns a boolean and mutates the
peer's `online` / `lastChecked` (and on success possibly `name`) fields. -/
def checkPeerStatus (probe : Except String ConfigResponse) (now : Int) (peer : Peer) :
    Peer × Bool :=
  match probe with
  | Except.ok resp =>
      ({ peer with online := true, lastChecked := now,
                   name := refreshName peer.name resp.displayName }, true)
  | Except.error _ =>
      ({ peer with online := false, lastChecked := now }, false)

/-! ## Admin-frontend fan-out (unnamed admin script, `saveToDevices`,
lines 611-686, and `handleFiles`, lines 715-774)

Both functions run the same batch shape: for each selected device id, the
peer registry snapshot is consulted; a missing or offline peer increments
`failCount` without any request; otherwise one `fetch` is awaited whose
outcome (`response.ok`, non-ok status, thrown network error) decides
`successCount` vs `failCount`.  The network is abstracted by an outcome
oracle `fetchR : String → FetchOutcome` giving the response to the request
a given device id's URL would receive; the list of device ids for which a
request was actually issued is recorded alongside the two counters. -/

inductive FetchOutcome where
  | ok
  | httpError
  | netError
deriving Repr, DecidableEq

/-- Overall result of `saveToDevices`: the `editingDeviceId` branch (lines
616-634), the empty-selection caller error (lines 637-640), or the batch
counters. -/
inductive SaveResult where
  | editSave (success : Bool)
  | noDevices
  | batch (successCount failCount : Nat) (attempted : List String)
deriving Repr, DecidableEq

/-- Lines 646-651 / 728-733: a target other than `"current"` whose peer
record is missing or has `online = false` is failed fast, with no request. -/
def fastFail (peers : List Peer) (d : String) : Bool :=
  d != "current" &&
    (match peers.find? (fun p => p.id == d) with
     | none => true
     | some p => !p.online)

/-- One loop iteration of the batch (lines 643-671): state is
`(successCount, failCount, attempted)`. -/
def saveStep (peers : List Peer) (fetchR : String → FetchOutcome)
    (st : Nat × Nat × List String) (d : String) : Nat × Nat × List String :=
  let s := st.1
  let f := st.2.1
  let att := st.2.2
  if d ≠ "current" then
    match peers.find? (fun p => p.id == d) with
    | none => (s, f + 1, att)
    | some p =>
        if p.online then
          match fetchR d with
          | FetchOutcome.ok => (s + 1, f, att ++ [d])
          | _ => (s, f + 1, att ++ [d])
        else (s, f + 1, att)
  else
    match fetchR d with
    | FetchOutcome.ok => (s + 1, f, att ++ [d])
    | _ => (s, f + 1, att ++ [d])

/-- `saveToDevices` (lines 611-686).  The UI-only arguments (endpoint,
payload, setting name) select the URL and messages and are absorbed into
the outcome oracle. -/
def saveToDevices (peers : List Peer) (fetchR : String → FetchOutcome)
    (editingDeviceId : Option String) (selectedDevices : List String) : SaveResult :=
  match editingDeviceId with
  | some ed =>
      SaveResult.editSave
        (match fetchR ed with
         | FetchOutcome.ok => true
         | _ => false)
  | none =>
      if selectedDevices.isEmpty then SaveResult.noDevices
      else
        let st := selectedDevices.foldl (saveStep peers fetchR) (0, 0, [])
        SaveResult.batch st.1 st.2.1 st.2.2

/-- Whether the loop issues a request for device `d` at all. -/
def attemptsRequest (peers : List Peer) (d : String) : Bool :=
  !fastFail peers d

/-- Whether the request issued for `d` comes back `response.ok`. -/
def requestOk (fetchR : String → FetchOutcome) (d : String) : Bool :=
  match fetchR d with
  | FetchOutcome.ok => true
  | _ => false

/-- Whether iteration `d` increments `successCount`. -/
def stepSucceeds (peers : List Peer) (fetchR : String → FetchOutcome) (d : String) : Bool :=
  attemptsRequest peers d && requestOk fetchR d

/-- Timing model of the batch loop.  Every iteration `await`s its `fetch`
before the next iteration starts (`for ... { await fetch(...) }`), so the
loop's elapsed time is the SUM of the individual request durations over the
devices for which a request is issued (fast-failed devices cost no network
time); `dur d` is the wall time of device `d`'s request. -/
def saveToDevicesElapsed (peers : List Peer) (dur : String → Nat)
    (selectedDevices : List String) : Nat :=
  ((selectedDevices.filter (attemptsRequest peers)).map dur).sum

/-- Modelled from the spec: the spec's claimed completion bound for a
fan-out batch — "the call completes within `perRequestTimeoutMs + ε`
regardless of any individual target's behavior", i.e. the dispatch latency
of a parallel issue.  Stated from the spec's words, to be compared with the
sequential timing of the source. -/
def specParallelDispatchBound (perRequestTimeoutMs eps elapsed : Nat) : Prop :=
  elapsed ≤ perRequestTimeoutMs + eps

/-! ## Addon registry and lifecycle (main.js lines 98-222 and 519-550)

`require(addonPath)` is abstracted by a per-file load result: an exception
(syntax error etc.) or a module value, of which the code reads `info`
(possibly absent / with absent or empty `name` / `version` — JS falsiness),
the `Addon` constructor's presence, and which lifecycle hooks the
constructed instance exposes.  Hook invocations are recorded as events;
hook bodies themselves are opaque (their exceptions are caught at every
call site). -/

/-- `module.info`, with `Option` capturing absent-or-falsy fields. -/
structure ModInfo where
  name : Option String
  version : Option String
deriving Repr, DecidableEq

/-- The shape of a successfully `require`d addon module. -/
structure AddonModule where
  info : Option ModInfo
  hasAddonClass : Bool
  hasInit : Bool
  hasStop : Bool
  hasUpdateConfig : Bool
deriving Repr, DecidableEq

/-- JS truthiness of an optional string field: present and non-empty. -/
def truthyStr (o : Option String) : Bool :=
  match o with
  | none => false
  | some s => s ≠ ""

/-- main.js line 116: `!addonModule.info || !addonModule.info.name ||
!addonModule.info.version` — the manifest validation. -/
def validModule (m : AddonModule) : Bool :=
  match m.info with
  | none => false
  | some i => truthyStr i.name && truthyStr i.version

/-- A persisted addon config: the `enabled` key (absent, `true`, or
`false`) plus the remaining keys, kept opaque. -/
structure AddonConfig where
  enabled : Option Bool
  rest : List (String × String)
deriving Repr, DecidableEq

/-- main.js lines 130 and 191: `config.enabled !== false` — absent counts
as enabled. -/
def enabledOf (c : AddonConfig) : Bool :=
  c.enabled != some false

/-- JS object spread `{...old, ...new}` on the modelled keys: a key present
in `new` wins, the rest keep `old`'s value. -/
def mergeConfig (old new : AddonConfig) : AddonConfig :=
  { enabled :=
      match new.enabled with
      | some b => some b
      | none => old.enabled,
    rest := old.rest.filter (fun kv => !(new.rest.any (fun kv2 => kv2.1 == kv.1))) ++ new.rest }

/-- The registry entry built at main.js lines 125-137. -/
structure Addon where
  id : String
  file : String
  info : ModInfo
  config : AddonConfig
  enabled : Bool
  module : AddonModule
  hasInstance : Bool
deriving Repr, DecidableEq

/-- The `addons` Map, as an association list in insertion order. -/
abbrev Registry := List (String × Addon)

/-- `Map.prototype.get`. -/
def mapGet (r : Registry) (k : String) : Option Addon :=
  (r.find? (fun kv => kv.1 == k)).map (fun kv => kv.2)

/-- `Map.prototype.set`: overwrite the existing key or append. -/
def mapSet (r : Registry) (k : String) (a : Addon) : Registry :=
  if r.any (fun kv => kv.1 == k) then
    r.map (fun kv => if kv.1 == k then (k, a) else kv)
  else r ++ [(k, a)]

/-- A recorded lifecycle hook invocation. -/
inductive HookEvent where
  | initCall (id : String)
  | stopCall (id : String)
  | updateConfigCall (id : String)
deriving Repr, DecidableEq

/-- Is the event an `init` invocation? -/
def isInitEvent (e : HookEvent) : Bool :=
  match e with
  | HookEvent.initCall _ => true
  | _ => false

deriving instance DecidableEq for Except

/-- One directory entry as `loadAddons` sees it: the file name from
`fs.readdir` and the outcome of `require`-ing it. -/
structure DirEntry where
  file : String
  load : Except String AddonModule
deriving Repr, DecidableEq

/-- main.js line 108: `path.basename(file, '.js')` on a name already known
to end in `.js`. -/
def addonIdOf (file : String) : String :=
  file.dropRight 3

/-- The per-file body of the `loadAddons` loop (main.js lines 105-156):
`require` failures and invalid manifests leave the registry untouched and
the loop continues; a valid module is inserted and, when enabled with an
instance exposing `init`, its `init` hook is invoked (its own failure being
caught at line 148). -/
def loadOne (persisted : List (String × AddonConfig)) (st : Registry × List HookEvent)
    (e : DirEntry) : Registry × List HookEvent :=
  match e.load with
  | Except.error _ => st
  | Except.ok m =>
    match m.info with
    | none => st
    | some i =>
      if truthyStr i.name && truthyStr i.version then
        let addonId := addonIdOf e.file
        let cfg := ((persisted.find? (fun kv => kv.1 == addonId)).map
          (fun kv => kv.2)).getD { enabled := none, rest := [] }
        let addon : Addon :=
          { id := addonId, file := e.file, info := i, config := cfg,
            enabled := enabledOf cfg, module := m, hasInstance := m.hasAddonClass }
        let ev :=
          if addon.enabled && addon.hasInstance && m.hasInit then
            [HookEvent.initCall addonId]
          else []
        (mapSet st.1 addonId addon, st.2 ++ ev)
      else st

/-- main.js lines 98-161, `loadAddons`: list the addons directory (a
failure of `fs.readdir` is caught at line 158 and leaves the registry as it
was), keep the `.js` entries, and run the per-file loop. -/
def loadAddons (persisted : List (String × AddonConfig))
    (entries : Except String (List DirEntry)) (registry : Registry) :
    Registry × List HookEvent :=
  match entries with
  | Except.error _ => (registry, [])
  | Except.ok files =>
      (files.filter (fun e => e.file.endsWith ".js")).foldl (loadOne persisted) (registry, [])

/-- main.js lines 519-550, `POST /api/addons/reload`: stop every enabled
addon whose instance exposes `stop` (each call individually guarded),
`addons.clear()`, then `loadAddons` over the fresh scan. -/
def reloadAll (persisted : List (String × AddonConfig))
    (entries : Except String (List DirEntry)) (registry : Registry) :
    Registry × List HookEvent :=
  let stopEvents := registry.filterMap (fun kv =>
    if kv.2.enabled && kv.2.hasInstance && kv.2.module.hasStop then
      some (HookEvent.stopCall kv.2.id)
    else none)
  let loaded := loadAddons persisted entries []
  (loaded.1, stopEvents ++ loaded.2)

/-- main.js lines 179-222, `updateAddonConfig`: unknown id throws
`NotFound`; otherwise the partial config is merged over the stored one, the
`enabled` flag recomputed, and — whenever an instance exists — `stop` is
called first (if exposed, errors caught), then `updateConfig` (if exposed),
then `init` again only if the merged config leaves the addon enabled. -/
def updateAddonConfig (addonId : String) (newConfig : AddonConfig) (registry : Registry) :
    Except String (Registry × List HookEvent) :=
  match mapGet registry addonId with
  | none => Except.error ("Addon " ++ addonId ++ " not found")
  | some addon =>
      let merged := mergeConfig addon.config newConfig
      let enabled := enabledOf merged
      let addon2 := { addon with config := merged, enabled := enabled }
      let events :=
        if addon.hasInstance then
          (if addon.module.hasStop then [HookEvent.stopCall addonId] else []) ++
          (if addon.module.hasUpdateConfig then [HookEvent.updateConfigCall addonId] else []) ++
          (if enabled && addon.module.hasInit then [HookEvent.initCall addonId] else [])
        else []
      Except.ok (mapSet registry addonId addon2, events)

/-! ## Concrete records used by witnesses and counterexamples -/

/-- A discovery configuration for instance "alpha". -/
def cfgW : DiscoveryConfig := { displayName := "alpha", staticIp := "", port := 3000 }

/-- An announcement from instance "beta". -/
def annW : Announcement := { type := "announce", id := "beta", name := "beta", port := 3001 }

/-- A discovered peer at 10.0.0.5:3000. -/
def pDisc : Peer :=
  { name := "other", ip := "10.0.0.5", port := 3000, lastSeen := 500,
    manual := false, online := true, lastChecked := 0, id := "10.0.0.5:3000" }

/-- A discovered peer at 10.0.0.9:3000, unrelated to the added one. -/
def pOther : Peer :=
  { name := "o2", ip := "10.0.0.9", port := 3000, lastSeen := 0,
    manual := false, online := false, lastChecked := 0, id := "10.0.0.9:3000" }

/-- A successful probe of a peer reporting the display name "Gamma". -/
def probeW : Except String ConfigResponse := Except.ok { displayName := some "Gamma" }

/-- Online peer A. -/
def pA : Peer :=
  { name := "A", ip := "10.0.0.11", port := 3000, lastSeen := 0,
    manual := false, online := true, lastChecked := 0, id := "10.0.0.11:3000" }

/-- Offline peer B. -/
def pBoff : Peer :=
  { name := "B", ip := "10.0.0.12", port := 3000, lastSeen := 0,
    manual := false, online := false, lastChecked := 0, id := "10.0.0.12:3000" }

/-- Online peer C (its requests will time out). -/
def pC : Peer :=
  { name := "C", ip := "10.0.0.13", port := 3000, lastSeen := 0,
    manual := false, online := true, lastChecked := 0, id := "10.0.0.13:3000" }

/-- Outcome oracle: A answers 2xx, every other request errors out. -/
def fetchW (d : String) : FetchOutcome :=
  if d = "10.0.0.11:3000" then FetchOutcome.ok else FetchOutcome.netError

/-- A well-formed addon module exposing all three lifecycle hooks. -/
def modFull : AddonModule :=
  { info := some { name := some "DateTime", version := some "1.0.0" },
    hasAddonClass := true, hasInit := true, hasStop := true, hasUpdateConfig := true }

/-- A loaded, enabled addon with a live instance. -/
def addonW : Addon :=
  { id := "datetime", file := "datetime.js",
    info := { name := some "DateTime", version := some "1.0.0" },
    config := { enabled := none, rest := [] },
    enabled := true, module := modFull, hasInstance := true }

/-- A one-addon registry. -/
def regW : Registry := [("datetime", addonW)]

/-- The same addon after being disabled (instance still held). -/
def addonDisabledW : Addon :=
  { id := "datetime", file := "datetime.js",
    info := { name := some "DateTime", version := some "1.0.0" },
    config := { enabled := some false, rest := [] },
    enabled := false, module := modFull, hasInstance := true }

/-- A registry holding only the disabled addon. -/
def regDisabledW : Registry := [("datetime", addonDisabledW)]

/-- A valid addon module without a stop hook. -/
def modGood : AddonModule :=
  { info := some { name := some "Clock", version := some "2.0" },
    hasAddonClass := true, hasInit := true, hasStop := false, hasUpdateConfig := false }

/-- A module whose manifest lacks the required `info.version`. -/
def modNoVersion : AddonModule :=
  { info := some { name := some "Broken", version := none },
    hasAddonClass := true, hasInit := true, hasStop := false, hasUpdateConfig := false }

/-- Directory entry for a valid addon file. -/
def entG1 : DirEntry := { file := "clock.js", load := Except.ok modGood }

/-- Directory entry whose manifest fails validation. -/
def entBad : DirEntry := { file := "broken.js", load := Except.ok modNoVersion }

/-- A second valid addon file, listed after the broken one. -/
def entG2 : DirEntry := { file := "news.js", load := Except.ok modGood }

/-- A partial config update that disables the addon. -/
def cfgDisable : AddonConfig := { enabled := some false, rest := [] }

/-! ## Helper lemmas -/

theorem countId_updateFirstPeer (pid : String) (ann : Announcement) (now : Int)
    (ps : List Peer) :
    countId (updateFirstPeer pid ann now ps) pid = countId ps pid := by
  induction ps with
  | nil => rfl
  | cons p ps ih =>
    by_cases h : p.id = pid
    · simp [updateFirstPeer, updatePeerFields, countId, List.filter_cons, h]
    · simp only [updateFirstPeer, beq_iff_eq, h, if_false]
      simp only [countId, List.filter_cons, beq_iff_eq, h, if_false] at ih ⊢
      exact ih

theorem countId_find?_none (ps : List Peer) (pid : String)
    (h : ps.find? (fun p => p.id == pid) = none) : countId ps pid = 0 := by
  have hall := List.find?_eq_none.mp h
  simp only [countId, List.length_eq_zero]
  exact List.filter_eq_nil_iff.mpr (fun p hp => hall p hp)

theorem countId_pos_of_find?_some (ps : List Peer) (pid : String) (x : Peer)
    (h : ps.find? (fun p => p.id == pid) = some x) : 0 < countId ps pid := by
  have hx : x ∈ ps := List.mem_of_find?_eq_some h
  have hpx := List.find?_some h
  have hmem : x ∈ ps.filter (fun p => p.id == pid) := List.mem_filter.mpr ⟨hx, hpx⟩
  exact List.length_pos_of_mem hmem

theorem find?_isSome_of_countId_pos (ps : List Peer) (pid : String)
    (h : 0 < countId ps pid) : (ps.find? (fun p => p.id == pid)).isSome := by
  rw [List.find?_isSome]
  have hne : ps.filter (fun p => p.id == pid) ≠ [] := by
    intro hnil
    simp only [countId, hnil, List.length_nil] at h
    exact Nat.lt_irrefl 0 h
  obtain ⟨x, hx⟩ := List.exists_mem_of_ne_nil _ hne
  exact ⟨x, (List.mem_filter.mp hx).1, (List.mem_filter.mp hx).2⟩

theorem setFirstById_not_found (peer : Peer) (ps : List Peer)
    (h : ∀ p ∈ ps, p.id ≠ peer.id) : setFirstById peer ps = ps ++ [peer] := by
  induction ps with
  | nil => rfl
  | cons q ps ih =>
    have hq : q.id ≠ peer.id := h q (by simp)
    simp only [setFirstById, beq_iff_eq, hq, if_false, List.cons_append, List.cons.injEq,
      true_and]
    exact ih (fun p hp => h p (List.mem_cons_of_mem q hp))

theorem filter_ne_id (pid : String) (ps : List Peer) (h : ∀ p ∈ ps, p.id ≠ pid) :
    ps.filter (fun p => p.id != pid) = ps := by
  induction ps with
  | nil => rfl
  | cons q ps ih =>
    have hq : q.id ≠ pid := h q (by simp)
    have hb : (q.id != pid) = true := bne_iff_ne.mpr hq
    simp only [List.filter_cons, hb, if_true]
    rw [ih (fun p hp => h p (List.mem_cons_of_mem q hp))]

/-- Core of the C1 argument: one announcement-processing step leaves exactly
one peer with the announced id, provided the registry held at most one. -/
theorem upsert_countId_eq_one (cfg : DiscoveryConfig) (ann : Announcement)
    (srcAddr : String) (now : Int) (ps : List Peer)
    (htype : ann.type = "announce") (hid : ann.id ≠ cfg.displayName)
    (hle : countId ps (announcedPeerId cfg srcAddr ann.port) ≤ 1) :
    countId (upsertFromAnnouncement cfg ann srcAddr now ps)
      (announcedPeerId cfg srcAddr ann.port) = 1 := by
  simp only [announcedPeerId] at hle ⊢
  simp only [upsertFromAnnouncement, if_pos (And.intro htype hid)]
  split
  · next x heq =>
      rw [countId_updateFirstPeer]
      exact Nat.le_antisymm hle (countId_pos_of_find?_some ps _ x heq)
  · next heq =>
      have h0 := countId_find?_none ps _ heq
      simp only [countId] at h0
      simp only [countId, List.filter_append, List.length_append, h0]
      simp

/-! ## Claim theorems -/

/-- C1: for every valid announcement whose id differs from the local display
name, the discovery listener leaves the registry with exactly one peer whose
id is the id derived from the announcement's resolved ip and port (given the
registry invariant that the id was not already duplicated), and processing
the same announcement again performs an in-place update of the existing
entry — it never appends a duplicate, and the count stays one. -/
theorem upsert_unique_and_idempotent (cfg : DiscoveryConfig) (ann : Announcement)
    (srcAddr : String) (now now2 : Int) (peers : List Peer)
    (htype : ann.type = "announce") (hid : ann.id ≠ cfg.displayName)
    (hnodup : countId peers (announcedPeerId cfg srcAddr ann.port) ≤ 1) :
    countId (upsertFromAnnouncement cfg ann srcAddr now peers)
        (announcedPeerId cfg srcAddr ann.port) = 1 ∧
    upsertFromAnnouncement cfg ann srcAddr now2
        (upsertFromAnnouncement cfg ann srcAddr now peers)
      = updateFirstPeer (announcedPeerId cfg srcAddr ann.port) ann now2
          (upsertFromAnnouncement cfg ann srcAddr now peers) ∧
    countId (upsertFromAnnouncement cfg ann srcAddr now2
        (upsertFromAnnouncement cfg ann srcAddr now peers))
        (announcedPeerId cfg srcAddr ann.port) = 1 := by
  have h1 := upsert_countId_eq_one cfg ann srcAddr now peers htype hid hnodup
  have hsome := find?_isSome_of_countId_pos _ _ (by rw [h1]; exact Nat.zero_lt_one)
  obtain ⟨x, hx⟩ := Option.isSome_iff_exists.mp hsome
  have h2 : upsertFromAnnouncement cfg ann srcAddr now2
      (upsertFromAnnouncement cfg ann srcAddr now peers)
      = updateFirstPeer (announcedPeerId cfg srcAddr ann.port) ann now2
          (upsertFromAnnouncement cfg ann srcAddr now peers) := by
    conv_lhs => rw [upsertFromAnnouncement]
    rw [if_pos (And.intro htype hid)]
    simp only [announcedPeerId] at hx ⊢
    rw [hx]
  refine ⟨h1, h2, ?_⟩
  rw [h2, countId_updateFirstPeer, h1]

/-- C1 witness: a fresh registry, announcement from "beta" received twice. -/
theorem upsert_unique_and_idempotent_witness :
    countId (upsertFromAnnouncement cfgW annW "192.168.1.7" 100 [])
        (announcedPeerId cfgW "192.168.1.7" annW.port) = 1 ∧
    upsertFromAnnouncement cfgW annW "192.168.1.7" 200
        (upsertFromAnnouncement cfgW annW "192.168.1.7" 100 [])
      = updateFirstPeer (announcedPeerId cfgW "192.168.1.7" annW.port) annW 200
          (upsertFromAnnouncement cfgW annW "192.168.1.7" 100 []) ∧
    countId (upsertFromAnnouncement cfgW annW "192.168.1.7" 200
        (upsertFromAnnouncement cfgW annW "192.168.1.7" 100 []))
        (announcedPeerId cfgW "192.168.1.7" annW.port) = 1 :=
  upsert_unique_and_idempotent cfgW annW "192.168.1.7" 100 200 []
    (by decide) (by decide) (by decide)

/-- C2: the staleness sweep keeps a peer exactly when it is manual or its
last announcement is within the window; equivalently it removes exactly the
discovered (`manual = false`) peers whose `lastSeen` lies at least
`maxAgeMs` in the past, and a manual peer survives the sweep for any
elapsed time. -/
theorem sweepStale_mem_iff (now maxAgeMs : Int) (p : Peer) (peers : List Peer) :
    p ∈ sweepStale now maxAgeMs peers ↔
      p ∈ peers ∧ (p.manual = true ∨ now - p.lastSeen < maxAgeMs) := by
  simp [sweepStale, List.mem_filter]

/-- C5 counterexample: when the registry already holds a (discovered) peer
with the id the manual add derives, `addManualPeer` replaces it, so the
subsequent `removePeer` does not restore the pre-add registry. -/
theorem addManual_remove_roundtrip_cex :
    removePeer "10.0.0.5:3000"
        (addManualPeer 3000 { ip := "10.0.0.5", name := "kiosk", port := some 3000 } [pDisc])
      ≠ [pDisc] := by
  decide

/-- C5 amended: if no peer in the registry already carries the id derived
from the request, `addManualPeer` followed by `removePeer` of that id
restores the registry exactly. -/
theorem addManual_remove_roundtrip (cfgPort : Nat) (req : AddPeerRequest) (peers : List Peer)
    (h : ∀ p ∈ peers, p.id ≠ derivePeerId req.ip (effectivePort cfgPort req.port)) :
    removePeer (derivePeerId req.ip (effectivePort cfgPort req.port))
        (addManualPeer cfgPort req peers) = peers := by
  unfold addManualPeer
  rw [setFirstById_not_found _ _ (fun p hp => h p hp)]
  unfold removePeer
  rw [List.filter_append, filter_ne_id _ _ h]
  simp

/-- C5 witness: adding 10.0.0.5:3000 next to an unrelated peer and removing
it again restores the one-peer registry. -/
theorem addManual_remove_roundtrip_witness :
    removePeer (derivePeerId "10.0.0.5" (effectivePort 3000 (some 3000)))
        (addManualPeer 3000 { ip := "10.0.0.5", name := "kiosk", port := some 3000 } [pOther])
      = [pOther] :=
  addManual_remove_roundtrip 3000
    { ip := "10.0.0.5", name := "kiosk", port := some 3000 } [pOther] (by decide)

/-- C9: the liveness check is total over probe outcomes (the Lean function
returns in both `Except` cases, mirroring the single catch-all); it returns
`true` exactly on a successful probe, writes `online` equal to the returned
boolean, stamps `lastChecked` in both cases, never changes `id`, `ip`,
`port` or `manual`, adopts a truthy reported `displayName` on success, and
leaves the name unchanged on failure. -/
theorem checkPeerStatus_spec (probe : Except String ConfigResponse) (now : Int) (peer : Peer) :
    ((checkPeerStatus probe now peer).2 = true ↔ ∃ r, probe = Except.ok r) ∧
    (checkPeerStatus probe now peer).1.online = (checkPeerStatus probe now peer).2 ∧
    (checkPeerStatus probe now peer).1.lastChecked = now ∧
    (checkPeerStatus probe now peer).1.id = peer.id ∧
    (checkPeerStatus probe now peer).1.ip = peer.ip ∧
    (checkPeerStatus probe now peer).1.port = peer.port ∧
    (checkPeerStatus probe now peer).1.manual = peer.manual ∧
    (∀ r, probe = Except.ok r → ∀ s, r.displayName = some s → s ≠ "" →
        (checkPeerStatus probe now peer).1.name = s) ∧
    (∀ msg, probe = Except.error msg → (checkPeerStatus probe now peer).1.name = peer.name) := by
  cases probe with
  | ok r =>
      refine ⟨by simp [checkPeerStatus], by simp [checkPeerStatus], by simp [checkPeerStatus],
        by simp [checkPeerStatus], by simp [checkPeerStatus], by simp [checkPeerStatus],
        by simp [checkPeerStatus], ?_, by simp⟩
      intro r2 hr s hs hne
      injection hr with hr2
      subst hr2
      simp [checkPeerStatus, refreshName, hs, hne]
  | error msg =>
      refine ⟨by simp [checkPeerStatus], by simp [checkPeerStatus], by simp [checkPeerStatus],
        by simp [checkPeerStatus], by simp [checkPeerStatus], by simp [checkPeerStatus],
        by simp [checkPeerStatus], by simp, by simp [checkPeerStatus]⟩

/-- C9 witness: a successful probe reporting the name "Gamma" against a
concrete offline peer record. -/
theorem checkPeerStatus_spec_witness :
    ((checkPeerStatus probeW 77 pOther).2 = true ↔ ∃ r, probeW = Except.ok r) ∧
    (checkPeerStatus probeW 77 pOther).1.online = (checkPeerStatus probeW 77 pOther).2 ∧
    (checkPeerStatus probeW 77 pOther).1.lastChecked = 77 ∧
    (checkPeerStatus probeW 77 pOther).1.id = pOther.id ∧
    (checkPeerStatus probeW 77 pOther).1.ip = pOther.ip ∧
    (checkPeerStatus probeW 77 pOther).1.port = pOther.port ∧
    (checkPeerStatus probeW 77 pOther).1.manual = pOther.manual ∧
    (∀ r, probeW = Except.ok r → ∀ s, r.displayName = some s → s ≠ "" →
        (checkPeerStatus probeW 77 pOther).1.name = s) ∧
    (∀ msg, probeW = Except.error msg →
        (checkPeerStatus probeW 77 pOther).1.name = pOther.name) :=
  checkPeerStatus_spec probeW 77 pOther

/-! ### Fan-out batch lemmas -/

theorem outcomeStep {β : Type} (o : FetchOutcome) (X Y : β) :
    (match o with
     | FetchOutcome.ok => X
     | _ => Y)
      = if (match o with
            | FetchOutcome.ok => true
            | _ => false) = true then X else Y := by
  cases o <;> simp

theorem saveStep_eq (peers : List Peer) (fetchR : String → FetchOutcome)
    (s f : Nat) (att : List String) (d : String) :
    saveStep peers fetchR (s, f, att) d
      = (s + (if stepSucceeds peers fetchR d then 1 else 0),
         f + (if stepSucceeds peers fetchR d then 0 else 1),
         att ++ (if attemptsRequest peers d then [d] else [])) := by
  by_cases hd : d = "current"
  · subst hd
    simp only [saveStep, stepSucceeds, attemptsRequest, fastFail, requestOk]
    rw [if_neg (fun h => h rfl)]
    rw [outcomeStep (fetchR "current")
      ((s + 1, f, att ++ ["current"]) : Nat × Nat × List String)
      (s, f + 1, att ++ ["current"])]
    by_cases hro : (match fetchR "current" with
      | FetchOutcome.ok => true
      | _ => false) = true
    · simp [hro]
    · simp [hro]
  · have hb : (d != "current") = true := bne_iff_ne.mpr hd
    simp only [saveStep, stepSucceeds, attemptsRequest, fastFail, requestOk, hb, if_pos hd]
    cases hf : peers.find? (fun p => p.id == d) with
    | none => simp
    | some p =>
        cases ho : p.online with
        | false => simp [ho]
        | true =>
            rw [outcomeStep (fetchR d)
              ((s + 1, f, att ++ [d]) : Nat × Nat × List String)
              (s, f + 1, att ++ [d])]
            by_cases hro : (match fetchR d with
              | FetchOutcome.ok => true
              | _ => false) = true
            · simp [ho, hro]
            · simp [ho, hro]

theorem saveFold (peers : List Peer) (fetchR : String → FetchOutcome) (ds : List String)
    (s0 f0 : Nat) (att0 : List String) :
    ds.foldl (saveStep peers fetchR) (s0, f0, att0)
      = (s0 + (ds.filter (stepSucceeds peers fetchR)).length,
         f0 + (ds.filter (fun d => !stepSucceeds peers fetchR d)).length,
         att0 ++ ds.filter (attemptsRequest peers)) := by
  induction ds generalizing s0 f0 att0 with
  | nil => simp
  | cons d ds ih =>
    rw [List.foldl_cons, saveStep_eq, ih]
    cases hs : stepSucceeds peers fetchR d <;>
      cases ha : attemptsRequest peers d <;>
        simp [List.filter_cons, hs, ha, Nat.add_assoc, Nat.add_comm 1]

theorem length_filter_partition {α : Type} (p : α → Bool) (l : List α) :
    (l.filter p).length + (l.filter (fun a => !p a)).length = l.length := by
  induction l with
  | nil => rfl
  | cons x l ih =>
    cases hx : p x <;> simp [List.filter_cons, hx] <;> omega

/-- C6: a batch over a non-empty target set always yields per-target
aggregated counts: `successCount + failCount` equals the number of targets,
a target whose peer record is missing or offline is failed fast with no
request issued, and the batch function is total (the per-target catch means
no partial failure ever escapes); an empty target set is answered with the
"select at least one device" caller error instead of counts. -/
theorem fanout_counts (peers : List Peer) (fetchR : String → FetchOutcome)
    (ds : List String) (hne : ds ≠ []) :
    (∃ s f att, saveToDevices peers fetchR none ds = SaveResult.batch s f att ∧
        s + f = ds.length ∧
        s = (ds.filter (stepSucceeds peers fetchR)).length ∧
        f = (ds.filter (fun d => !stepSucceeds peers fetchR d)).length ∧
        (∀ d ∈ ds, fastFail peers d = true → stepSucceeds peers fetchR d = false) ∧
        (∀ d ∈ ds, fastFail peers d = true → d ∉ att)) ∧
    saveToDevices peers fetchR none [] = SaveResult.noDevices := by
  refine ⟨⟨(ds.filter (stepSucceeds peers fetchR)).length,
          (ds.filter (fun d => !stepSucceeds peers fetchR d)).length,
          ds.filter (attemptsRequest peers), ?_, ?_, rfl, rfl, ?_, ?_⟩, rfl⟩
  · have hemp : ds.isEmpty = false := by
      cases ds with
      | nil => exact absurd rfl hne
      | cons d ds => rfl
    simp only [saveToDevices, hemp, Bool.false_eq_true, if_false, saveFold, Nat.zero_add,
      List.nil_append]
  · exact length_filter_partition _ ds
  · intro d _ hff
    simp [stepSucceeds, attemptsRequest, hff]
  · intro d _ hff hmem
    have hatt := (List.mem_filter.mp hmem).2
    rw [attemptsRequest, hff] at hatt
    exact Bool.false_ne_true hatt

/-- C6 witness: targets A (online, answers 2xx), B (offline) and C (online
but its request errors out): the batch reports 1 success, 2 failures, three
accounted targets, with no request issued to B. -/
theorem fanout_counts_witness :
    (∃ s f att,
        saveToDevices [pA, pBoff, pC] fetchW none
            ["10.0.0.11:3000", "10.0.0.12:3000", "10.0.0.13:3000"]
          = SaveResult.batch s f att ∧
        s + f = ["10.0.0.11:3000", "10.0.0.12:3000", "10.0.0.13:3000"].length ∧
        s = (["10.0.0.11:3000", "10.0.0.12:3000", "10.0.0.13:3000"].filter
              (stepSucceeds [pA, pBoff, pC] fetchW)).length ∧
        f = (["10.0.0.11:3000", "10.0.0.12:3000", "10.0.0.13:3000"].filter
              (fun d => !stepSucceeds [pA, pBoff, pC] fetchW d)).length ∧
        (∀ d ∈ ["10.0.0.11:3000", "10.0.0.12:3000", "10.0.0.13:3000"],
            fastFail [pA, pBoff, pC] d = true →
              stepSucceeds [pA, pBoff, pC] fetchW d = false) ∧
        (∀ d ∈ ["10.0.0.11:3000", "10.0.0.12:3000", "10.0.0.13:3000"],
            fastFail [pA, pBoff, pC] d = true → d ∉ att)) ∧
    saveToDevices [pA, pBoff, pC] fetchW none [] = SaveResult.noDevices :=
  fanout_counts [pA, pBoff, pC] fetchW
    ["10.0.0.11:3000", "10.0.0.12:3000", "10.0.0.13:3000"] (by decide)

/-- C3 counterexample: two online targets whose requests each take the full
30000 ms per-request budget make the sequential batch take 60000 ms, which
exceeds the claimed `perRequestTimeoutMs + ε` bound (here ε = 5000 ms):
the loop awaits each request before issuing the next, so dispatch latency
is the sum over targets, not the maximum. -/
theorem fanout_parallel_cex :
    saveToDevicesElapsed [pA, pC] (fun _ => 30000)
        ["10.0.0.11:3000", "10.0.0.13:3000"] = 60000 ∧
    ¬ specParallelDispatchBound 30000 5000
        (saveToDevicesElapsed [pA, pC] (fun _ => 30000)
          ["10.0.0.11:3000", "10.0.0.13:3000"]) := by
  refine ⟨by decide, ?_⟩
  simp only [specParallelDispatchBound]
  decide

/-- C3 amended: requests are issued sequentially, each awaited before the
next: the set of targets that get a request does not depend on any
individual request's outcome (one target's failure or timeout never skips
or cancels the requests to the others), and the batch's elapsed time is the
SUM of the per-request durations over the attempted targets — not bounded
by a single per-request timeout. -/
theorem fanout_sequential (peers : List Peer) (f g : String → FetchOutcome)
    (dur : String → Nat) (ds : List String) (hne : ds ≠ []) :
    ∃ s1 f1 s2 f2 att,
      saveToDevices peers f none ds = SaveResult.batch s1 f1 att ∧
      saveToDevices peers g none ds = SaveResult.batch s2 f2 att ∧
      saveToDevicesElapsed peers dur ds = (att.map dur).sum := by
  have hemp : ds.isEmpty = false := by
    cases ds with
    | nil => exact absurd rfl hne
    | cons d ds => rfl
  refine ⟨(ds.filter (stepSucceeds peers f)).length,
          (ds.filter (fun d => !stepSucceeds peers f d)).length,
          (ds.filter (stepSucceeds peers g)).length,
          (ds.filter (fun d => !stepSucceeds peers g d)).length,
          ds.filter (attemptsRequest peers), ?_, ?_, rfl⟩ <;>
    simp only [saveToDevices, hemp, Bool.false_eq_true, if_false, saveFold, Nat.zero_add,
      List.nil_append]

/-- C3 amended witness: a single online target, one oracle answering 2xx
and one failing: both runs attempt the same target and the elapsed time is
that target's request duration. -/
theorem fanout_sequential_witness :
    ∃ s1 f1 s2 f2 att,
      saveToDevices [pA] (fun _ => FetchOutcome.ok) none ["10.0.0.11:3000"]
        = SaveResult.batch s1 f1 att ∧
      saveToDevices [pA] (fun _ => FetchOutcome.netError) none ["10.0.0.11:3000"]
        = SaveResult.batch s2 f2 att ∧
      saveToDevicesElapsed [pA] (fun _ => 10) ["10.0.0.11:3000"] = (att.map (fun _ => 10)).sum :=
  fanout_sequential [pA] (fun _ => FetchOutcome.ok) (fun _ => FetchOutcome.netError)
    (fun _ => 10) ["10.0.0.11:3000"] (by decide)

/-! ### Addon registry lemmas -/

theorem mapGet_map_set (r : Registry) (k : String) (a : Addon)
    (h : r.any (fun kv => kv.1 == k) = true) :
    mapGet (r.map (fun kv => if kv.1 == k then (k, a) else kv)) k = some a := by
  induction r with
  | nil => simp at h
  | cons kv r ih =>
    by_cases hk : kv.1 = k
    · simp [mapGet, hk]
    · have hk2 : (kv.1 == k) = false := by simp [hk]
      have h2 : r.any (fun kv => kv.1 == k) = true := by
        simpa [List.any_cons, hk2] using h
      simp only [List.map_cons, hk2, Bool.false_eq_true, if_false, mapGet]
      rw [List.find?_cons_of_neg _ (by simp [hk])]
      simpa [mapGet] using ih h2

theorem mapGet_append_new (r : Registry) (k : String) (a : Addon)
    (h : r.any (fun kv => kv.1 == k) = false) :
    mapGet (r ++ [(k, a)]) k = some a := by
  induction r with
  | nil => simp [mapGet]
  | cons kv r ih =>
    rw [List.any_cons, Bool.or_eq_false_iff] at h
    simp only [List.cons_append, mapGet]
    rw [List.find?_cons_of_neg _ (by simp [h.1])]
    simpa [mapGet] using ih h.2

theorem mapGet_mapSet_self (r : Registry) (k : String) (a : Addon) :
    mapGet (mapSet r k a) k = some a := by
  unfold mapSet
  by_cases h : r.any (fun kv => kv.1 == k) = true
  · rw [if_pos h]
    exact mapGet_map_set r k a h
  · rw [if_neg h]
    exact mapGet_append_new r k a (Bool.eq_false_iff.mpr h)

theorem loadOne_invalid (persisted : List (String × AddonConfig))
    (st : Registry × List HookEvent) (e : DirEntry) (m : AddonModule)
    (hload : e.load = Except.ok m) (hinv : validModule m = false) :
    loadOne persisted st e = st := by
  obtain ⟨inf, hac, hi, hs, huc⟩ := m
  cases inf with
  | none =>
      simp only [loadOne, hload]
  | some i =>
      have hinv2 : (truthyStr i.name && truthyStr i.version) = false := hinv
      simp only [loadOne, hload]
      simp [hinv2]

/-! ### Addon claim theorems -/

/-- C8: an addons-directory entry whose module loads but whose manifest
fails validation (missing or falsy `info.name` / `info.version`) is skipped
without aborting: the scan of any listing containing it produces exactly
the registry and init events of the same listing with the entry removed —
in particular all entries after it are still processed, and the Lean
function is total (nothing is raised). -/
theorem scan_skips_invalid (persisted : List (String × AddonConfig))
    (pre post : List DirEntry) (bad : DirEntry) (m : AddonModule) (r : Registry)
    (hload : bad.load = Except.ok m) (hinv : validModule m = false) :
    loadAddons persisted (Except.ok (pre ++ bad :: post)) r
      = loadAddons persisted (Except.ok (pre ++ post)) r := by
  simp only [loadAddons]
  rw [List.filter_append, List.filter_append, List.filter_cons]
  cases hjs : bad.file.endsWith ".js" with
  | false => rw [if_neg (by simp [hjs])]
  | true =>
      rw [if_pos (by simp [hjs]), List.foldl_append, List.foldl_append, List.foldl_cons,
        loadOne_invalid persisted _ bad m hload hinv]

/-- C8 witness: a listing `clock.js, broken.js, news.js` where `broken.js`
lacks `info.version` scans to the same result as `clock.js, news.js`. -/
theorem scan_skips_invalid_witness :
    loadAddons [] (Except.ok ([entG1] ++ entBad :: [entG2])) []
      = loadAddons [] (Except.ok ([entG1] ++ [entG2])) [] :=
  scan_skips_invalid [] [entG1] [entG2] entBad modNoVersion [] rfl rfl

/-- C4 counterexample: with the `datetime` addon loaded, a failed directory
scan (readdir error) leaves the registry EMPTY — `addons.clear()` runs
before `loadAddons`, whose catch block returns with the cleared map — so
the previously active addon set does NOT remain active, contradicting the
claimed atomicity. -/
theorem reloadAll_scan_failure_cex :
    (reloadAll [] (Except.error "EACCES: permission denied") regW).1 ≠ regW := by
  decide

/-- C4 amended: `reloadAll` always discards the previous addon set: on a
successful scan the resulting registry is exactly the one produced by
scanning into an empty registry (independent of the prior set), and on a
scan failure the resulting registry is empty rather than the previous
set. -/
theorem reloadAll_replaces_or_empties (persisted : List (String × AddonConfig))
    (entries : List DirEntry) (r : Registry) (msg : String) :
    (reloadAll persisted (Except.error msg) r).1 = [] ∧
    (reloadAll persisted (Except.ok entries) r).1
      = (loadAddons persisted (Except.ok entries) []).1 :=
  ⟨rfl, rfl⟩

/-- C7: disabling a running addon (an update whose merged config has
`enabled = false`) on an instance exposing a stop hook records exactly one
`stop` invocation and no `init` invocation, stores the addon disabled, and
— in general, for any registry state — any further update whose merged
config still leaves the addon disabled records no `init` invocation, so no
`init` happens until an update re-enables it. -/
theorem updateConfig_disable (r : Registry) (id : String) (newCfg : AddonConfig) (a : Addon)
    (hlook : mapGet r id = some a) (hinst : a.hasInstance = true)
    (hstop : a.module.hasStop = true) (_hrun : a.enabled = true)
    (hdis : enabledOf (mergeConfig a.config newCfg) = false) :
    (∃ r2 ev, updateAddonConfig id newCfg r = Except.ok (r2, ev) ∧
        (ev.filter (fun e => e == HookEvent.stopCall id)).length = 1 ∧
        ev.filter isInitEvent = [] ∧
        mapGet r2 id
          = some { a with config := mergeConfig a.config newCfg, enabled := false }) ∧
    ∀ (r3 : Registry) (b : Addon) (u : AddonConfig), mapGet r3 id = some b →
        enabledOf (mergeConfig b.config u) = false →
        ∀ r4 ev2, updateAddonConfig id u r3 = Except.ok (r4, ev2) →
          ev2.filter isInitEvent = [] := by
  constructor
  · unfold updateAddonConfig
    rw [hlook]
    refine ⟨_, _, rfl, ?_, ?_, ?_⟩
    · by_cases hu : a.module.hasUpdateConfig = true <;>
        simp [hinst, hstop, hdis, hu, isInitEvent, List.filter_append, List.filter_cons,
          beq_iff_eq]
    · by_cases hu : a.module.hasUpdateConfig = true <;>
        simp [hinst, hstop, hdis, hu, isInitEvent, List.filter_append, List.filter_cons,
          beq_iff_eq]
    · rw [hdis]
      exact mapGet_mapSet_self r id _
  · intro r3 b u hlook2 hdis2 r4 ev2 hupd
    unfold updateAddonConfig at hupd
    rw [hlook2] at hupd
    simp only [Except.ok.injEq, Prod.mk.injEq] at hupd
    rw [← hupd.2]
    by_cases hbi : b.hasInstance = true <;>
      by_cases hbs : b.module.hasStop = true <;>
        by_cases hbu : b.module.hasUpdateConfig = true <;>
          simp [hbi, hbs, hbu, hdis2, isInitEvent, List.filter_append, List.filter_cons]

/-- C7 witness: disabling the enabled `datetime` addon. -/
theorem updateConfig_disable_witness :
    (∃ r2 ev, updateAddonConfig "datetime" cfgDisable regW = Except.ok (r2, ev) ∧
        (ev.filter (fun e => e == HookEvent.stopCall "datetime")).length = 1 ∧
        ev.filter isInitEvent = [] ∧
        mapGet r2 "datetime"
          = some { addonW with config := mergeConfig addonW.config cfgDisable,
                               enabled := false }) ∧
    ∀ (r3 : Registry) (b : Addon) (u : AddonConfig), mapGet r3 "datetime" = some b →
        enabledOf (mergeConfig b.config u) = false →
        ∀ r4 ev2, updateAddonConfig "datetime" u r3 = Except.ok (r4, ev2) →
          ev2.filter isInitEvent = [] :=
  updateConfig_disable regW "datetime" cfgDisable addonW rfl rfl rfl rfl (by decide)

/-- C10 (implicit behavior): every configuration update on an addon whose
instance exposes a stop hook invokes `stop` — exactly once, and before any
other hook — regardless of whether the addon was enabled beforehand; the
prior `enabled` state is not consulted. -/
theorem updateConfig_always_stops (r : Registry) (id : String) (newCfg : AddonConfig)
    (a : Addon) (hlook : mapGet r id = some a) (hinst : a.hasInstance = true)
    (hstop : a.module.hasStop = true) :
    ∃ r2 ev, updateAddonConfig id newCfg r = Except.ok (r2, ev) ∧
      (ev.filter (fun e => e == HookEvent.stopCall id)).length = 1 ∧
      ∃ rest, ev = HookEvent.stopCall id :: rest := by
  unfold updateAddonConfig
  rw [hlook]
  refine ⟨_, _, rfl, ?_, ?_⟩
  · by_cases hu : a.module.hasUpdateConfig = true <;>
      by_cases he : (enabledOf (mergeConfig a.config newCfg) && a.module.hasInit) = true <;>
        simp [hinst, hstop, hu, he, List.filter_append, List.filter_cons, beq_iff_eq]
  · refine ⟨(if a.module.hasUpdateConfig then [HookEvent.updateConfigCall id] else []) ++
      (if enabledOf (mergeConfig a.config newCfg) && a.module.hasInit then
        [HookEvent.initCall id] else []), ?_⟩
    simp [hinst, hstop]

/-- C10 witness: updating the config of the already-disabled `datetime`
addon still invokes `stop` (once, first). -/
theorem updateConfig_always_stops_witness :
    ∃ r2 ev, updateAddonConfig "datetime" cfgDisable regDisabledW = Except.ok (r2, ev) ∧
      (ev.filter (fun e => e == HookEvent.stopCall "datetime")).length = 1 ∧
      ∃ rest, ev = HookEvent.stopCall "datetime" :: rest :=
  updateConfig_always_stops regDisabledW "datetime" cfgDisable addonDisabledW rfl rfl rfl

end ImagePresenter
